import Mathlib

/-!
Verification of the data-tool specification against a shallow embedding of
`src/data_tool.py`.

The embedding models the parsed forms of the two file formats:

* the hierarchical (JSON) format as an inductive `Json` value, as produced
  by Python's `json.load` (numbers are modelled by integers; no claim
  exercises non-integral numerics);
* the delimited (CSV) format as a list of cell rows, as produced by
  Python's `csv.reader`; `csv.DictReader`'s row-to-dict logic is embedded
  explicitly (`dictReaderRow`), including its `restkey`/`restval` handling.

Python dicts are modelled as insertion-ordered association lists with
overwrite-in-place assignment (`pyDictInsert`), matching CPython's
insertion-order semantics.  Python's `set` of field names, which the code
only ever observes through `sorted(...)`, is modelled as an
order-insensitive deduplicated list followed by a code-point sort.
-/

namespace DataTool

/-- Parsed JSON values as produced by Python's `json.load`. -/
inductive Json where
  | null
  | bool (b : Bool)
  | int (n : Int)
  | str (s : String)
  | arr (xs : List Json)
  | obj (kvs : List (String × Json))

/-- Python exceptions raised on the code paths the claims exercise. -/
inductive PyErr where
  | attributeError (msg : String)
  | valueError (msg : String)
  | fileNotFound
deriving DecidableEq

/-- Values stored in a `csv.DictReader` row dict: a text cell, the
`restval` default `None` for uncovered header fields, or the `restkey`
list of extra trailing cells. -/
inductive CsvCellVal where
  | cell (s : String)
  | missing
  | extras (cells : List String)
deriving DecidableEq

/-- A `csv.DictReader` record: keys are header names (`some h`) or the
`restkey` `None` (`none`). -/
abbrev CsvRecord := List (Option String × CsvCellVal)

/-- Python dict assignment `d[k] = v`: overwrite in place if the key is
present (keeping its insertion position), else append. -/
def pyDictInsert [DecidableEq K] (d : List (K × V)) (k : K) (v : V) : List (K × V) :=
  if k ∈ d.map Prod.fst then d.map (fun kv => if kv.1 = k then (kv.1, v) else kv)
  else d ++ [(k, v)]

/-- Python `dict(pairs)`: left-to-right insertion. -/
def pyDictOf [DecidableEq K] (kvs : List (K × V)) : List (K × V) :=
  kvs.foldl (fun d kv => pyDictInsert d kv.1 kv.2) []

/-- Python `d.get(k)` on a dict: first (unique) binding of `k`. -/
def pyGetKV [DecidableEq K] (d : List (K × V)) (k : K) : Option V :=
  match d with
  | [] => none
  | kv :: rest => if kv.1 = k then some kv.2 else pyGetKV rest k

/-- One data row of `csv.DictReader` (CPython `DictReader.__next__`):
`d = dict(zip(fieldnames, row))`; extra cells go to the `restkey` `None`
as a list, uncovered header fields are filled with the `restval` `None`. -/
def dictReaderRow (header row : List String) : CsvRecord :=
  let base := pyDictOf ((header.zip row).map (fun hc => (some hc.1, CsvCellVal.cell hc.2)))
  if header.length < row.length then
    pyDictInsert base none (CsvCellVal.extras (row.drop header.length))
  else
    (header.drop row.length).foldl (fun d k => pyDictInsert d (some k) CsvCellVal.missing) base

/-- The row cap of `read_csv`/`read_json`: Python's `if max_rows and ...`
treats both `None` and `0` as "no cap". -/
def applyCap (cap : Option Nat) (xs : List α) : List α :=
  match cap with
  | none => xs
  | some n => if n = 0 then xs else xs.take n

/-- Embedding of `read_csv` (src/data_tool.py:29-37) over the cell rows
produced by `csv.reader`.  The first row is the header; `DictReader`
skips blank rows; the loop appends a record and stops once
`max_rows and i + 1 >= max_rows`. -/
def read_csv (content : List (List String)) (max_rows : Option Nat) : List CsvRecord :=
  match content with
  | [] => []
  | header :: rest => applyCap max_rows ((rest.filter (fun r => !r.isEmpty)).map (dictReaderRow header))

/-- Embedding of `read_json` (src/data_tool.py:40-48) over the parsed
document: a list root is truncated by the (truthy) cap, a dict root is
wrapped as a one-record dataset, anything else raises `ValueError`. -/
def read_json (data : Json) (max_rows : Option Nat) : Except PyErr (List Json) :=
  match data with
  | Json.arr xs => Except.ok (applyCap max_rows xs)
  | Json.obj kvs => Except.ok [Json.obj kvs]
  | _ => Except.error (PyErr.valueError "JSON root must be an object or an array of objects")

/-- Single-quote character, built by code point to keep source text plain. -/
def sq : String := String.singleton (Char.ofNat 39)

/-- Lower-case hexadecimal digit. -/
def hexDigit (n : Nat) : Char := if n < 10 then Char.ofNat (48 + n) else Char.ofNat (87 + n)

/-- Two lower-case hexadecimal digits of a byte. -/
def hex2 (n : Nat) : String := String.mk [hexDigit (n / 16 % 16), hexDigit (n % 16)]

/-- One character of Python's `repr` of a string, given the chosen quote
character `q`: escape backslash, the quote, and ASCII control characters. -/
def reprEscChar (q : Char) (c : Char) : String :=
  if c = Char.ofNat 92 then "\\\\"
  else if c = q then String.singleton (Char.ofNat 92) ++ String.singleton q
  else if c = Char.ofNat 10 then "\\n"
  else if c = Char.ofNat 13 then "\\r"
  else if c = Char.ofNat 9 then "\\t"
  else if c.toNat < 32 || c.toNat = 127 then "\\x" ++ hex2 c.toNat
  else String.singleton c

/-- Python `repr` of a string: single quotes, or double quotes when the
text contains a single quote but no double quote. -/
def pyReprStr (s : String) : String :=
  let q := if s.data.contains (Char.ofNat 39) && !(s.data.contains (Char.ofNat 34))
           then Char.ofNat 34 else Char.ofNat 39
  String.singleton q ++ String.join (s.data.map (reprEscChar q)) ++ String.singleton q

/-- Nesting depth of a parsed JSON value, used as recursion fuel for the
serializers below. -/
def jsonDepth : Json → Nat
  | Json.null => 1
  | Json.bool _ => 1
  | Json.int _ => 1
  | Json.str _ => 1
  | Json.arr xs => 1 + (xs.attach.map (fun x => jsonDepth x.1)).foldr Nat.max 0
  | Json.obj kvs => 1 + (kvs.attach.map (fun kv => jsonDepth kv.1.2)).foldr Nat.max 0
decreasing_by
  all_goals simp_wf
  · have h := List.sizeOf_lt_of_mem x.2
    omega
  · rcases kv with ⟨⟨k, v⟩, hmem⟩
    have h := List.sizeOf_lt_of_mem hmem
    simp [Prod.mk.sizeOf_spec] at h
    simp
    omega

/-- Python `repr` of a parsed JSON value; recursion into nested containers
is fuelled (the fuel always suffices, see `pyRepr`).  Scalar cases do not
consume fuel, so they reduce for any fuel term. -/
def pyReprF (fuel : Nat) : Json → String
  | Json.null => "None"
  | Json.bool b => if b then "True" else "False"
  | Json.int n => toString n
  | Json.str s => pyReprStr s
  | Json.arr xs =>
      match fuel with
      | 0 => ""
      | f + 1 => "[" ++ String.intercalate ", " (xs.map (pyReprF f)) ++ "]"
  | Json.obj kvs =>
      match fuel with
      | 0 => ""
      | f + 1 => "\x7b" ++ String.intercalate ", " (kvs.map (fun kv => pyReprStr kv.1 ++ ": " ++ pyReprF f kv.2)) ++ "\x7d"

/-- Python `repr` of a value (`{val!r}` in the validator's messages).
The fuel `jsonDepth j + 1` exceeds the nesting depth, so the fuelled
recursion never hits its fuel-exhaustion case. -/
def pyRepr (j : Json) : String := pyReprF (jsonDepth j + 1) j

/-- One character of `json.dumps` string quoting (`ensure_ascii=False`). -/
def jsonEscChar (c : Char) : String :=
  if c = Char.ofNat 92 then "\\\\"
  else if c = Char.ofNat 34 then "\\\""
  else if c = Char.ofNat 10 then "\\n"
  else if c = Char.ofNat 13 then "\\r"
  else if c = Char.ofNat 9 then "\\t"
  else if c = Char.ofNat 8 then "\\b"
  else if c = Char.ofNat 12 then "\\f"
  else if c.toNat < 32 then "\\u00" ++ hex2 c.toNat
  else String.singleton c

/-- The `json.dumps` quoted form of a string. -/
def jsonQuote (s : String) : String := "\"" ++ String.join (s.data.map jsonEscChar) ++ "\""

/-- Python `json.dumps` with the default separators `", "` and `": "`;
recursion into nested containers is fuelled (the fuel always suffices,
see `jsonDumps`). -/
def jsonDumpsF (fuel : Nat) : Json → String
  | Json.null => "null"
  | Json.bool b => if b then "true" else "false"
  | Json.int n => toString n
  | Json.str s => jsonQuote s
  | Json.arr xs =>
      match fuel with
      | 0 => ""
      | f + 1 => "[" ++ String.intercalate ", " (xs.map (jsonDumpsF f)) ++ "]"
  | Json.obj kvs =>
      match fuel with
      | 0 => ""
      | f + 1 => "\x7b" ++ String.intercalate ", " (kvs.map (fun kv => jsonQuote kv.1 ++ ": " ++ jsonDumpsF f kv.2)) ++ "\x7d"

/-- Compact `json.dumps` re-serialization used for nested cell values.
The fuel `jsonDepth j + 1` exceeds the nesting depth, so the fuelled
recursion never hits its fuel-exhaustion case. -/
def jsonDumps (j : Json) : String := jsonDumpsF (jsonDepth j + 1) j

/-- Python `str` of a value (used when formatting an unknown schema tag). -/
def pyStr (j : Json) : String :=
  match j with
  | Json.str s => s
  | other => pyRepr other

/-- Python type name of a value, as it appears in `AttributeError` text. -/
def pyTypeName : Json → String
  | Json.null => "NoneType"
  | Json.bool _ => "bool"
  | Json.int _ => "int"
  | Json.str _ => "str"
  | Json.arr _ => "list"
  | Json.obj _ => "dict"

/-- Message of the `AttributeError` raised by `item.get` on a non-dict. -/
def attrMsg (t : String) : String :=
  sq ++ t ++ sq ++ " object has no attribute " ++ sq ++ "get" ++ sq

/-- Code-point comparison of strings, as used by Python's `sorted` on
`str` (lexicographic on Unicode code points). -/
def charListLe : List Char → List Char → Bool
  | [], _ => true
  | _ :: _, [] => false
  | a :: as, b :: bs =>
    if a.toNat < b.toNat then true
    else if b.toNat < a.toNat then false
    else charListLe as bs

/-- String comparison underlying `sorted` on field names. -/
def strLe (a b : String) : Bool := charListLe a.data b.data

/-- Ordered insertion for the model of Python's `sorted`. -/
def insertStr (x : String) : List String → List String
  | [] => [x]
  | y :: ys => if strLe x y then x :: y :: ys else y :: insertStr x ys

/-- Model of Python's `sorted` on a collection of strings. -/
def sortStrings (l : List String) : List String := l.foldr insertStr []

/-- Field names of a dataset element, when it is a record (`item.keys()`
is only consulted for dict items, src/data_tool.py:93-95). -/
def recKeys : Json → List String
  | Json.obj kvs => kvs.map Prod.fst
  | _ => []

/-- All field names of all record elements, left to right. -/
def allKeys : List Json → List String
  | [] => []
  | it :: rest => recKeys it ++ allKeys rest

/-- First-occurrence deduplication; with `sortStrings` this models the
`sorted(set_of_fields)` of `json_to_csv` (only the membership of the
Python `set` is observable through `sorted`). -/
def dedupKeys (ks : List String) : List String :=
  ks.foldl (fun acc k => if k ∈ acc then acc else acc ++ [k]) []

/-- The union of field names of `json_to_csv` (src/data_tool.py:92-95). -/
def keysUnion (items : List Json) : List String := dedupKeys (allKeys items)

/-- A flat cell as written by `csv.DictWriter` for the value `v` computed
at src/data_tool.py:103-108: nested structures are re-serialized with
`json.dumps`, `None` is written as empty text, other scalars via `str`. -/
def cellOf : Json → String
  | Json.obj kvs => jsonDumps (Json.obj kvs)
  | Json.arr xs => jsonDumps (Json.arr xs)
  | Json.null => ""
  | Json.str s => s
  | Json.int n => toString n
  | Json.bool b => if b then "True" else "False"

/-- One output row of `json_to_csv` (src/data_tool.py:100-109): for a
record, each header field's value (default `""` when absent) is turned
into a cell; for a non-record, the first field access `item.get`
raises `AttributeError` — unless the header is empty, in which case no
access happens and an empty row is written. -/
def rowFor (fields : List String) (item : Json) : Except PyErr (List String) :=
  match item with
  | Json.obj kvs =>
      Except.ok (fields.map (fun k =>
        cellOf (match pyGetKV kvs k with
                | some v => v
                | none => Json.str "")))
  | other =>
      match fields with
      | [] => Except.ok []
      | _ => Except.error (PyErr.attributeError (attrMsg (pyTypeName other)))

/-- All output rows, stopping at the first raising element. -/
def rowsFor (fields : List String) : List Json → Except PyErr (List (List String))
  | [] => Except.ok []
  | it :: rest =>
    match rowFor fields it with
    | Except.error e => Except.error e
    | Except.ok r =>
      match rowsFor fields rest with
      | Except.error e => Except.error e
      | Except.ok rs => Except.ok (r :: rs)

/-- The header and rows written for a list of dataset elements. -/
def jsonToCsvItems (items : List Json) : Except PyErr (List String × List (List String)) :=
  let fields := sortStrings (keysUnion items)
  match rowsFor fields items with
  | Except.error e => Except.error e
  | Except.ok rows => Except.ok (fields, rows)

/-- Embedding of `json_to_csv` (src/data_tool.py:83-110) from the parsed
input document to the written header and data rows. -/
def json_to_csv (data : Json) : Except PyErr (List String × List (List String)) :=
  match data with
  | Json.obj kvs => jsonToCsvItems [Json.obj kvs]
  | Json.arr xs => jsonToCsvItems xs
  | _ => Except.error (PyErr.valueError "JSON must be an array of objects or a single object")

/-- A `DictReader` cell value as it appears after `json.dump`/`json.load`:
text stays text, the `restval` `None` becomes `null`, the `restkey` list
becomes an array of strings. -/
def csvValToJson : CsvCellVal → Json
  | CsvCellVal.cell s => Json.str s
  | CsvCellVal.missing => Json.null
  | CsvCellVal.extras xs => Json.arr (xs.map Json.str)

/-- A `DictReader` record as serialized by `json.dump`: the `restkey`
`None` is coerced to the string key `"null"`. -/
def csvRecordToJson (rec : CsvRecord) : Json :=
  Json.obj (rec.map (fun kv =>
    (match kv.1 with
     | some s => s
     | none => "null", csvValToJson kv.2)))

/-- Embedding of `csv_to_json` (src/data_tool.py:74-80): the whole
delimited file (no cap) is read through `DictReader` and dumped as a
JSON array of records. -/
def csv_to_json (content : List (List String)) : Json :=
  Json.arr ((read_csv content none).map csvRecordToJson)

/-- String-keyed view of a `DictReader` record as the validator sees it:
`r.get(field)` with a string `field` can never hit the `restkey` `None`,
so only the string-keyed bindings matter. -/
def csvRecordFields (rec : CsvRecord) : List (String × Json) :=
  rec.filterMap (fun kv =>
    match kv.1 with
    | some s => some (s, csvValToJson kv.2)
    | none => none)

/-- Whitespace stripped by Python's `int()`/`float()` (ASCII subset). -/
def isPyWS (c : Char) : Bool :=
  c = Char.ofNat 32 || c = Char.ofNat 9 || c = Char.ofNat 10 ||
  c = Char.ofNat 13 || c = Char.ofNat 11 || c = Char.ofNat 12

/-- Strip leading and trailing whitespace. -/
def stripWSList (cs : List Char) : List Char :=
  ((cs.dropWhile isPyWS).reverse.dropWhile isPyWS).reverse

/-- The underscore character. -/
def uscore : Char := Char.ofNat 95

/-- Continuation of a digit run after its first digit: digits, with
single underscores allowed only between digits. -/
def digitsTail : List Char → Bool
  | [] => true
  | c :: rest =>
    if c.isDigit then digitsTail rest
    else if c = uscore then
      match rest with
      | [] => false
      | d :: rest2 => d.isDigit && digitsTail rest2
    else false

/-- A non-empty digit run with valid underscore placement. -/
def validRun : List Char → Bool
  | [] => false
  | c :: rest => c.isDigit && digitsTail rest

/-- Drop one optional leading sign. -/
def dropSign (cs : List Char) : List Char :=
  match cs with
  | c :: rest => if c = Char.ofNat 43 || c = Char.ofNat 45 then rest else cs
  | [] => []

/-- Whether Python's `int()` accepts a string (ASCII digits): optional
whitespace and sign around a digit run. -/
def pyIntParseable (s : String) : Bool :=
  validRun (dropSign (stripWSList s.data))

/-- Split off the maximal digit-or-underscore prefix. -/
def splitRun (cs : List Char) : List Char × List Char :=
  cs.span (fun c => c.isDigit || c = uscore)

/-- Exponent part after `e`/`E`: optional sign and a digit run. -/
def expTail (cs : List Char) : Bool :=
  let p := splitRun (dropSign cs)
  validRun p.1 && p.2.isEmpty

/-- Optional exponent part. -/
def expOk : List Char → Bool
  | [] => true
  | c :: r => (c = Char.ofNat 101 || c = Char.ofNat 69) && expTail r

/-- The numeric grammar of Python's `float()` (after sign stripping):
`digits`, `digits '.' digits?`, `'.' digits`, each with an optional
exponent. -/
def numericFloat (cs : List Char) : Bool :=
  let p := splitRun cs
  match p.2 with
  | [] => validRun p.1
  | c :: r2 =>
    if c = Char.ofNat 46 then
      let q := splitRun r2
      (!p.1.isEmpty || !q.1.isEmpty) &&
      (p.1.isEmpty || validRun p.1) &&
      (q.1.isEmpty || validRun q.1) &&
      expOk q.2
    else if c = Char.ofNat 101 || c = Char.ofNat 69 then
      validRun p.1 && expTail r2
    else false

/-- Whether Python's `float()` accepts a string: optional whitespace and
sign around either an `inf`/`infinity`/`nan` word (case-insensitive) or
the numeric grammar. -/
def pyFloatParseable (s : String) : Bool :=
  let cs := dropSign (stripWSList s.data)
  let low := cs.map Char.toLower
  if low == "inf".data || low == "infinity".data || low == "nan".data then true
  else numericFloat cs

/-- Whether `int(val)` succeeds on a field value: strings must match the
integer grammar; ints and booleans convert; `None`, lists and dicts
raise (`TypeError`, caught by the validator's bare `except`). -/
def intAble : Json → Bool
  | Json.str s => pyIntParseable s
  | Json.int _ => true
  | Json.bool _ => true
  | _ => false

/-- Whether `float(val)` succeeds on a field value. -/
def floatAble : Json → Bool
  | Json.str s => pyFloatParseable s
  | Json.int _ => true
  | Json.bool _ => true
  | _ => false

/-- The `val is None or val == ""` test of src/data_tool.py:123: the
field is absent, or present with `None`, or present with empty text. -/
def valMissing : Option Json → Bool
  | none => true
  | some Json.null => true
  | some (Json.str s) => s == ""
  | some _ => false

/-- The schema tag as a string, when the schema value is one (`tname ==
"int"` in Python is only true for the string `"int"`). -/
def tagOf : Json → Option String
  | Json.str s => some s
  | _ => none

/-- The messages contributed by one `(field, tname)` schema pair for the
0-indexed row `i` (src/data_tool.py:121-140). -/
def pairMsgs (i : Nat) (r : List (String × Json)) (field : String) (tname : Json) : List String :=
  let val := pyGetKV r field
  if valMissing val then ["row " ++ toString (i + 1) ++ ": missing " ++ field]
  else
    match val with
    | some v =>
      if tagOf tname = some "int" then
        if intAble v then []
        else ["row " ++ toString (i + 1) ++ ": field " ++ field ++ " expected int, got " ++ pyRepr v]
      else if tagOf tname = some "float" then
        if floatAble v then []
        else ["row " ++ toString (i + 1) ++ ": field " ++ field ++ " expected float, got " ++ pyRepr v]
      else if tagOf tname = some "str" then []
      else ["unknown schema type for " ++ field ++ ": " ++ pyStr tname]
    | none => []

/-- The messages contributed by one record, in schema order. -/
def fieldErrors (i : Nat) (r : List (String × Json)) : List (String × Json) → List String
  | [] => []
  | ft :: rest => pairMsgs i r ft.1 ft.2 ++ fieldErrors i r rest

/-- Validation of the rows starting at 0-based index `i`: a non-record
row raises `AttributeError` at its first `r.get` — unless the schema is
empty, in which case the inner loop never runs. -/
def validateGo (schema : List (String × Json)) : Nat → List Json → Except PyErr (List String)
  | _, [] => Except.ok []
  | i, Json.obj kvs :: rest =>
    match validateGo schema (i + 1) rest with
    | Except.error e => Except.error e
    | Except.ok tl => Except.ok (fieldErrors i kvs schema ++ tl)
  | i, other :: rest =>
    match schema with
    | [] => validateGo schema (i + 1) rest
    | _ => Except.error (PyErr.attributeError (attrMsg (pyTypeName other)))

/-- Embedding of `validate_schema` (src/data_tool.py:113-141): rows are
the parsed records (duck-typed, so any JSON value may appear), the
schema is the loaded field-to-tag dict. -/
def validate_schema (rows : List Json) (schema : List (String × Json)) : Except PyErr (List String) :=
  validateGo schema 0 rows

/-- Embedding of `load_schema` (src/data_tool.py:144-150) from the parsed
schema document. -/
def load_schema (data : Json) : Except PyErr (List (String × Json)) :=
  match data with
  | Json.obj kvs => Except.ok kvs
  | _ => Except.error (PyErr.valueError "Schema must be a JSON object mapping field -> type")

/-- A file's text content, abstracted by the outcomes of the two stdlib
parses the tool can apply to it: `json.load` (which can raise a decode
error) and the csv reader (which can raise, e.g. on undecodable bytes). -/
structure RawFile where
  jsonResult : Except PyErr Json
  csvResult : Except PyErr (List (List String))

/-- A path given on the command line: its lower-cased extension and its
content (`none` when the path does not exist, so that opening raises
`FileNotFoundError`). -/
structure InputFile where
  suffix : String
  content : Option RawFile

/-- Opening and reading a path with `read_json`. -/
def openJsonFile (f : InputFile) (cap : Option Nat) : Except PyErr (List Json) :=
  match f.content with
  | none => Except.error PyErr.fileNotFound
  | some raw =>
    match raw.jsonResult with
    | Except.error e => Except.error e
    | Except.ok data => read_json data cap

/-- Opening and reading a path with `read_csv`. -/
def openCsvFile (f : InputFile) (cap : Option Nat) : Except PyErr (List CsvRecord) :=
  match f.content with
  | none => Except.error PyErr.fileNotFound
  | some raw =>
    match raw.csvResult with
    | Except.error e => Except.error e
    | Except.ok rows => Except.ok (read_csv rows cap)

/-- The two possible shapes of `rows` in `main` (duck-typed in Python). -/
inductive RowsData where
  | fromJson (l : List Json)
  | fromCsv (l : List CsvRecord)

/-- The auto-detection fallback of `main` (src/data_tool.py:186-190 and
208-213): `try: rows = read_json(p) except Exception: rows = read_csv(p)`.
The hierarchical parse is attempted first; on any failure the delimited
parse is attempted, and its outcome — including its error — is what the
caller sees. -/
def guessRead (f : InputFile) (cap : Option Nat) : Except PyErr RowsData :=
  match openJsonFile f cap with
  | Except.ok rs => Except.ok (RowsData.fromJson rs)
  | Except.error _ =>
    match openCsvFile f cap with
    | Except.ok rs => Except.ok (RowsData.fromCsv rs)
    | Except.error e => Except.error e

/-- Rows as the validator sees them: csv records are dicts whose string
keys hold text or `None` values. -/
def rowsAsJson : RowsData → List Json
  | RowsData.fromJson l => l
  | RowsData.fromCsv l => l.map (fun r => Json.obj (csvRecordFields r))

/-- Embedding of the `validate` subcommand of `main`
(src/data_tool.py:202-226): read the rows by extension (else guess),
load the schema, validate; any exception is caught by the outer handler
and yields exit status 1; otherwise the exit status is 0 for an empty
error list and 3 for a non-empty one.  The schema source is `none` when
the schema path does not exist. -/
def mainValidate (input : InputFile) (schemaSrc : Option (Except PyErr Json)) : Nat :=
  let rowsRes : Except PyErr (List Json) :=
    if input.suffix = ".csv" then
      match openCsvFile input none with
      | Except.error e => Except.error e
      | Except.ok rs => Except.ok (rowsAsJson (RowsData.fromCsv rs))
    else if input.suffix = ".json" then openJsonFile input none
    else
      match guessRead input none with
      | Except.error e => Except.error e
      | Except.ok rd => Except.ok (rowsAsJson rd)
  match rowsRes with
  | Except.error _ => 1
  | Except.ok rows =>
    match (match schemaSrc with
           | none => Except.error PyErr.fileNotFound
           | some (Except.error e) => Except.error e
           | some (Except.ok j) => load_schema j) with
    | Except.error _ => 1
    | Except.ok schema =>
      match validate_schema rows schema with
      | Except.error _ => 1
      | Except.ok errors => if errors.isEmpty then 0 else 3

/-- The flattening contract as the specification states it (§4.2): the
header is the sorted union of the field names of all records; a cell is
empty text when the field is absent or null, the hierarchical
re-serialization when the value is nested, and the default textual form
when it is a scalar.  Stated independently of `json_to_csv` for the
refinement claim C6. -/
def flattenSpec (items : List Json) : List String × List (List String) :=
  let hdr := sortStrings (dedupKeys (allKeys items))
  (hdr, items.map (fun it => hdr.map (fun f =>
    match it with
    | Json.obj kvs =>
      (match pyGetKV kvs f with
       | none => ""
       | some Json.null => ""
       | some (Json.obj kvs2) => jsonDumps (Json.obj kvs2)
       | some (Json.arr xs) => jsonDumps (Json.arr xs)
       | some (Json.str s) => s
       | some (Json.int n) => toString n
       | some (Json.bool b) => if b then "True" else "False")
    | _ => "")))

/-- Python's `isinstance(item, dict)`. -/
def isObj : Json → Bool
  | Json.obj _ => true
  | _ => false

/-- Whether a value is a string or `null` (used to state the invariant
claim about documents written by `convert-to-json`). -/
def stringOrNull : Json → Bool
  | Json.str _ => true
  | Json.null => true
  | _ => false

/-- Whether a document is an array of records all of whose field values
are strings or `null`. -/
def stringOrNullDoc : Json → Bool
  | Json.arr items => items.all (fun it =>
      match it with
      | Json.obj kvs => kvs.all (fun kv => stringOrNull kv.2)
      | _ => false)
  | _ => false

/-- Index of the first occurrence of a string in a list (used to state
cell preservation up to column reordering). -/
def idxOfStr (f : String) : List String → Nat
  | [] => 0
  | a :: l => if a = f then 0 else idxOfStr f l + 1

/-- Canonical form of the hierarchical record obtained from one delimited
row whose length does not exceed the header: covered fields hold their
text cell, uncovered fields hold `null` (used to reason about the round
trip). -/
def objRow (header r : List String) : List (String × Json) :=
  (header.zip r).map (fun hc => (hc.1, Json.str hc.2))
  ++ (header.drop r.length).map (fun k => (k, Json.null))

/-- Membership through ordered insertion. -/
theorem mem_insertStr {x y : String} : ∀ {l : List String}, x ∈ insertStr y l ↔ x = y ∨ x ∈ l := by
  intro l
  induction l with
  | nil => simp [insertStr]
  | cons a l ih =>
    simp only [insertStr]
    by_cases h : strLe y a = true
    · simp [h]
    · rw [if_neg h]
      simp only [List.mem_cons, ih]
      tauto

/-- Sorting preserves membership. -/
theorem mem_sortStrings {x : String} : ∀ {l : List String}, x ∈ sortStrings l ↔ x ∈ l := by
  intro l
  induction l with
  | nil => simp [sortStrings]
  | cons a l ih =>
    simp only [sortStrings, List.foldr_cons] at *
    rw [mem_insertStr, ih]
    simp

/-- The code-point comparison is total. -/
theorem charListLe_total : ∀ (as bs : List Char), charListLe as bs = true ∨ charListLe bs as = true := by
  intro as
  induction as with
  | nil => intro bs; left; cases bs <;> simp [charListLe]
  | cons a as ih =>
    intro bs
    cases bs with
    | nil => right; simp [charListLe]
    | cons b bs =>
      by_cases h1 : a.toNat < b.toNat
      · left; simp [charListLe, h1]
      · by_cases h2 : b.toNat < a.toNat
        · right; simp [charListLe, h1, h2]
        · have e1 : charListLe (a :: as) (b :: bs) = charListLe as bs := by
            simp [charListLe, h1, h2]
          have e2 : charListLe (b :: bs) (a :: as) = charListLe bs as := by
            simp [charListLe, h1, h2]
          rw [e1, e2]
          exact ih bs

/-- String comparison is total. -/
theorem strLe_total (a b : String) : strLe a b = true ∨ strLe b a = true :=
  charListLe_total a.data b.data

/-- Ordered insertion preserves adjacent-sortedness. -/
theorem chain'_insertStr (x : String) :
    ∀ (l : List String), List.Chain' (fun a b => strLe a b = true) l →
      List.Chain' (fun a b => strLe a b = true) (insertStr x l) := by
  intro l
  induction l with
  | nil => intro _; simp [insertStr]
  | cons a l ih =>
    intro h
    simp only [insertStr]
    by_cases hxa : strLe x a = true
    · rw [if_pos hxa]
      exact List.chain'_cons.mpr ⟨hxa, h⟩
    · rw [if_neg hxa]
      have hax : strLe a x = true := by
        rcases strLe_total x a with h1 | h1
        · exact absurd h1 hxa
        · exact h1
      have htl : List.Chain' (fun a b => strLe a b = true) (insertStr x l) :=
        ih (List.Chain'.tail h)
      apply List.chain'_cons'.mpr
      refine ⟨?_, htl⟩
      intro y hy
      cases l with
      | nil =>
        simp [insertStr] at hy
        subst hy
        exact hax
      | cons b l' =>
        simp only [insertStr] at hy
        by_cases hxb : strLe x b = true
        · rw [if_pos hxb] at hy
          simp at hy
          subst hy
          exact hax
        · rw [if_neg hxb] at hy
          simp at hy
          subst hy
          exact (List.chain'_cons.mp h).1

/-- The sorted header is ascending (adjacent code-point comparison). -/
theorem sortStrings_chain' (l : List String) :
    List.Chain' (fun a b => strLe a b = true) (sortStrings l) := by
  induction l with
  | nil => simp [sortStrings]
  | cons a l ih => exact chain'_insertStr a _ ih

/-- Membership through the deduplicating fold. -/
theorem mem_dedup_foldl : ∀ (l acc : List String) (k : String),
    k ∈ l.foldl (fun acc k => if k ∈ acc then acc else acc ++ [k]) acc ↔ k ∈ acc ∨ k ∈ l := by
  intro l
  induction l with
  | nil => simp
  | cons a l ih =>
    intro acc k
    simp only [List.foldl_cons]
    rw [ih]
    simp only [List.mem_cons]
    by_cases h : a ∈ acc
    · rw [if_pos h]
      constructor
      · tauto
      · rintro (hk | hk | hk)
        · exact Or.inl hk
        · rw [hk]; exact Or.inl h
        · exact Or.inr hk
    · rw [if_neg h]
      simp only [List.mem_append, List.mem_singleton]
      tauto

/-- Deduplication preserves membership. -/
theorem mem_dedupKeys (l : List String) (k : String) : k ∈ dedupKeys l ↔ k ∈ l := by
  simp [dedupKeys, mem_dedup_foldl]

/-- Elements already accumulated are skipped by the deduplicating fold. -/
theorem dedup_foldl_skip : ∀ (l acc : List String), (∀ k ∈ l, k ∈ acc) →
    l.foldl (fun acc k => if k ∈ acc then acc else acc ++ [k]) acc = acc := by
  intro l
  induction l with
  | nil => simp
  | cons a l ih =>
    intro acc h
    simp only [List.foldl_cons]
    rw [if_pos (h a (by simp))]
    exact ih acc (fun k hk => h k (by simp [hk]))

/-- Fresh distinct elements are appended in order by the fold. -/
theorem dedup_foldl_new : ∀ (l acc : List String), l.Nodup → (∀ k ∈ l, k ∉ acc) →
    l.foldl (fun acc k => if k ∈ acc then acc else acc ++ [k]) acc = acc ++ l := by
  intro l
  induction l with
  | nil => simp
  | cons a l ih =>
    intro acc hnd hdisj
    simp only [List.foldl_cons]
    rw [if_neg (hdisj a (by simp))]
    rw [ih (acc ++ [a]) (List.nodup_cons.mp hnd).2]
    · simp
    · intro k hk
      simp only [List.mem_append, List.mem_singleton]
      rintro (h | h)
      · exact hdisj k (by simp [hk]) h
      · rw [h] at hk
        exact (List.nodup_cons.mp hnd).1 hk

/-- Deduplicating a duplicate-free list followed by elements it already
contains returns the list itself. -/
theorem dedupKeys_header (header extra : List String) (hnd : header.Nodup)
    (hsub : ∀ k ∈ extra, k ∈ header) : dedupKeys (header ++ extra) = header := by
  unfold dedupKeys
  rw [List.foldl_append]
  rw [dedup_foldl_new header [] hnd (by simp)]
  simp only [List.nil_append]
  exact dedup_foldl_skip extra header hsub

/-- Inserting a fresh key appends the binding. -/
theorem pyDictInsert_not_mem [DecidableEq K] (d : List (K × V)) (k : K) (v : V)
    (h : k ∉ d.map Prod.fst) : pyDictInsert d k v = d ++ [(k, v)] := by
  simp [pyDictInsert, h]

/-- Folding fresh distinct bindings into a dict appends them in order. -/
theorem pyDict_foldl_fresh [DecidableEq K] : ∀ (kvs d : List (K × V)),
    (kvs.map Prod.fst).Nodup → (∀ k ∈ kvs.map Prod.fst, k ∉ d.map Prod.fst) →
    kvs.foldl (fun d kv => pyDictInsert d kv.1 kv.2) d = d ++ kvs := by
  intro kvs
  induction kvs with
  | nil => simp
  | cons kv rest ih =>
    intro d hnd hdisj
    simp only [List.foldl_cons]
    rw [pyDictInsert_not_mem d kv.1 kv.2 (hdisj kv.1 (by simp))]
    simp only [List.map_cons, List.nodup_cons] at hnd
    rw [ih (d ++ [(kv.1, kv.2)]) hnd.2]
    · simp
    · intro k hk
      simp only [List.map_append, List.mem_append, List.map_cons, List.map_nil,
        List.mem_singleton]
      rintro (h | h)
      · exact hdisj k (by simp [hk]) h
      · rw [h] at hk
        exact hnd.1 hk

/-- Building a dict from bindings with distinct keys returns them as-is. -/
theorem pyDictOf_nodup [DecidableEq K] (kvs : List (K × V))
    (h : (kvs.map Prod.fst).Nodup) : pyDictOf kvs = kvs := by
  have e := pyDict_foldl_fresh kvs [] h (by simp)
  simpa [pyDictOf] using e

/-- Filling distinct fresh header fields with the `restval` appends the
`missing` bindings in order. -/
theorem fill_missing_fresh : ∀ (ks : List String) (d : CsvRecord),
    ks.Nodup → (∀ k ∈ ks, (some k) ∉ d.map Prod.fst) →
    ks.foldl (fun d k => pyDictInsert d (some k) CsvCellVal.missing) d
      = d ++ ks.map (fun k => (some k, CsvCellVal.missing)) := by
  intro ks
  induction ks with
  | nil => simp
  | cons a rest ih =>
    intro d hnd hdisj
    simp only [List.foldl_cons]
    rw [pyDictInsert_not_mem d (some a) CsvCellVal.missing (hdisj a (by simp))]
    simp only [List.nodup_cons] at hnd
    rw [ih (d ++ [(some a, CsvCellVal.missing)]) hnd.2]
    · simp
    · intro k hk
      simp only [List.map_append, List.mem_append, List.map_cons, List.map_nil,
        List.mem_singleton]
      rintro (h | h)
      · exact hdisj k (by simp [hk]) h
      · simp at h
        rw [h] at hk
        exact hnd.1 hk

/-- The first components of a zip are the first list truncated to the
second list's length. -/
theorem zip_map_fst : ∀ (l1 : List String) (l2 : List String),
    (l1.zip l2).map Prod.fst = l1.take l2.length := by
  intro l1
  induction l1 with
  | nil => intro l2; simp
  | cons a l1 ih =>
    intro l2
    cases l2 with
    | nil => simp
    | cons b l2 => simp [ih]

/-- The keys of the zipped part of a `DictReader` record. -/
theorem zipPart_keys (header row : List String) :
    ((header.zip row).map (fun hc => (some hc.1, CsvCellVal.cell hc.2))).map Prod.fst
      = (header.take row.length).map some := by
  rw [List.map_map, ← zip_map_fst header row, List.map_map]
  rfl

/-- Canonical form of a `DictReader` record for a row not longer than a
duplicate-free header: the zipped cells followed by `missing` fills. -/
theorem dictReaderRow_short (header row : List String) (hnd : header.Nodup)
    (hlen : row.length ≤ header.length) :
    dictReaderRow header row =
      (header.zip row).map (fun hc => (some hc.1, CsvCellVal.cell hc.2))
      ++ (header.drop row.length).map (fun k => (some k, CsvCellVal.missing)) := by
  have hnodup : (((header.zip row).map (fun hc => (some hc.1, CsvCellVal.cell hc.2))).map Prod.fst).Nodup := by
    rw [zipPart_keys]
    exact (hnd.sublist (List.take_sublist _ _)).map (Option.some_injective _)
  have hdropnodup : (header.drop row.length).Nodup :=
    hnd.sublist (List.drop_sublist _ _)
  have hdisj : ∀ k ∈ header.drop row.length,
      (some k) ∉ ((header.zip row).map (fun hc => (some hc.1, CsvCellVal.cell hc.2))).map Prod.fst := by
    intro k hk hmem
    rw [zipPart_keys] at hmem
    have htake : k ∈ header.take row.length := by
      rcases List.mem_map.mp hmem with ⟨k2, hk2, he⟩
      rw [Option.some_injective _ he] at hk2
      exact hk2
    exact List.disjoint_take_drop hnd (Nat.le_refl _) htake hk
  unfold dictReaderRow
  rw [if_neg (by omega)]
  rw [pyDictOf_nodup _ hnodup]
  exact fill_missing_fresh (header.drop row.length) _ hdropnodup hdisj

/-- Canonical form of a `DictReader` record for a row longer than a
duplicate-free header: all header cells followed by the `restkey`
binding holding the extra cells. -/
theorem dictReaderRow_long (header row : List String) (hnd : header.Nodup)
    (hlen : header.length < row.length) :
    dictReaderRow header row =
      (header.zip row).map (fun hc => (some hc.1, CsvCellVal.cell hc.2))
      ++ [(none, CsvCellVal.extras (row.drop header.length))] := by
  have hnodup : (((header.zip row).map (fun hc => (some hc.1, CsvCellVal.cell hc.2))).map Prod.fst).Nodup := by
    rw [zipPart_keys]
    exact (hnd.sublist (List.take_sublist _ _)).map (Option.some_injective _)
  have hnone : (none : Option String) ∉
      ((header.zip row).map (fun hc => (some hc.1, CsvCellVal.cell hc.2))).map Prod.fst := by
    rw [zipPart_keys]
    intro hmem
    rcases List.mem_map.mp hmem with ⟨k2, _, he⟩
    exact Option.noConfusion he
  unfold dictReaderRow
  rw [if_pos hlen]
  rw [pyDictOf_nodup _ hnodup]
  exact pyDictInsert_not_mem _ _ _ hnone

/-- Lookup for an absent key. -/
theorem pyGetKV_eq_none [DecidableEq K] : ∀ (d : List (K × V)) (k : K),
    k ∉ d.map Prod.fst → pyGetKV d k = none := by
  intro d
  induction d with
  | nil => intro k _; rfl
  | cons kv rest ih =>
    intro k h
    simp only [List.map_cons, List.mem_cons] at h
    push_neg at h
    simp only [pyGetKV]
    rw [if_neg (fun he => h.1 he.symm)]
    exact ih k h.2

/-- Lookup of a binding in a dict with distinct keys. -/
theorem pyGetKV_of_mem [DecidableEq K] : ∀ (d : List (K × V)) (k : K) (v : V),
    (d.map Prod.fst).Nodup → (k, v) ∈ d → pyGetKV d k = some v := by
  intro d
  induction d with
  | nil => intro k v _ h; cases h
  | cons kv rest ih =>
    intro k v hnd hmem
    simp only [List.map_cons, List.nodup_cons] at hnd
    rcases List.mem_cons.mp hmem with h | h
    · rw [← h]
      simp [pyGetKV]
    · have hk : k ∈ rest.map Prod.fst := List.mem_map.mpr ⟨(k, v), h, rfl⟩
      have hne : ¬ kv.1 = k := fun he => hnd.1 (he ▸ hk)
      simp only [pyGetKV]
      rw [if_neg hne]
      exact ih k v hnd.2 h

/-- An in-bounds `getD` is a member of the list. -/
theorem getD_mem : ∀ (l : List String) (j : Nat), j < l.length → l.getD j "" ∈ l := by
  intro l
  induction l with
  | nil => intro j h; simp at h
  | cons a l ih =>
    intro j h
    cases j with
    | zero => simp
    | succ j =>
      simp only [List.length_cons, Nat.succ_lt_succ_iff] at h
      simp only [List.getD_cons_succ]
      exact List.mem_cons_of_mem a (ih j h)

/-- An in-bounds `getD` past a drop point is a member of the dropped
suffix. -/
theorem getD_mem_drop : ∀ (l : List String) (m j : Nat), m ≤ j → j < l.length →
    l.getD j "" ∈ l.drop m := by
  intro l
  induction l with
  | nil => intro m j _ h; simp at h
  | cons a l ih =>
    intro m j hmj hj
    cases m with
    | zero => simpa using getD_mem (a :: l) j hj
    | succ m =>
      cases j with
      | zero => omega
      | succ j =>
        simp only [List.length_cons, Nat.succ_lt_succ_iff] at hj
        simp only [List.getD_cons_succ, List.drop_succ_cons]
        exact ih m j (by omega) hj

/-- The in-bounds pair of two lists' `getD`s is a member of their zip. -/
theorem getD_pair_mem_zip : ∀ (l1 l2 : List String) (j : Nat), j < l1.length → j < l2.length →
    (l1.getD j "", l2.getD j "") ∈ l1.zip l2 := by
  intro l1
  induction l1 with
  | nil => intro l2 j h; simp at h
  | cons a l1 ih =>
    intro l2 j h1 h2
    cases l2 with
    | nil => simp at h2
    | cons b l2 =>
      cases j with
      | zero => simp [List.zip_cons_cons]
      | succ j =>
        simp only [List.length_cons, Nat.succ_lt_succ_iff] at h1 h2
        simp only [List.getD_cons_succ, List.zip_cons_cons]
        exact List.mem_cons_of_mem _ (ih l2 j h1 h2)

/-- An in-bounds `getD` of a mapped list is the function at the original
`getD` (any defaults). -/
theorem map_getD_lt {α β : Type} (F : α → β) : ∀ (l : List α) (i : Nat) (d : β) (d2 : α),
    i < l.length → (l.map F).getD i d = F (l.getD i d2) := by
  intro l
  induction l with
  | nil => intro i d d2 h; simp at h
  | cons a l ih =>
    intro i d d2 h
    cases i with
    | zero => simp
    | succ i =>
      simp only [List.length_cons, Nat.succ_lt_succ_iff] at h
      simp only [List.map_cons, List.getD_cons_succ]
      exact ih i d d2 h

/-- The `getD` of a mapped list at the index of a member is the function
at that member. -/
theorem map_getD_idxOf (g : String → String) : ∀ (l : List String) (f : String), f ∈ l →
    (l.map g).getD (idxOfStr f l) "" = g f := by
  intro l
  induction l with
  | nil => intro f h; cases h
  | cons a l ih =>
    intro f hf
    simp only [idxOfStr, List.map_cons]
    by_cases h : a = f
    · rw [if_pos h, h]
      rfl
    · rw [if_neg h]
      simp only [List.getD_cons_succ]
      exact ih f (by rcases List.mem_cons.mp hf with h2 | h2; exact absurd h2.symm h; exact h2)

/-- Each binding of a dict after an insertion is an original binding or
carries the inserted value. -/
theorem mem_pyDictInsert [DecidableEq K] (d : List (K × V)) (k : K) (v : V) (kv : K × V)
    (h : kv ∈ pyDictInsert d k v) : kv ∈ d ∨ kv.2 = v := by
  unfold pyDictInsert at h
  by_cases hmem : k ∈ d.map Prod.fst
  · rw [if_pos hmem] at h
    rcases List.mem_map.mp h with ⟨kv0, hkv0, heq⟩
    by_cases hk : kv0.1 = k
    · rw [if_pos hk] at heq
      right
      rw [← heq]
    · rw [if_neg hk] at heq
      left
      rw [← heq]
      exact hkv0
  · rw [if_neg hmem] at h
    rcases List.mem_append.mp h with h | h
    · exact Or.inl h
    · right
      simp at h
      rw [h]

/-- Values surviving the dict-building fold come from the initial dict or
from the folded bindings. -/
theorem mem_pyDict_foldl_vals [DecidableEq K] : ∀ (kvs : List (K × V)) (d : List (K × V)) (kv : K × V),
    kv ∈ kvs.foldl (fun d kv => pyDictInsert d kv.1 kv.2) d → kv ∈ d ∨ kv.2 ∈ kvs.map Prod.snd := by
  intro kvs
  induction kvs with
  | nil => intro d kv h; exact Or.inl h
  | cons kv0 rest ih =>
    intro d kv h
    simp only [List.foldl_cons] at h
    rcases ih (pyDictInsert d kv0.1 kv0.2) kv h with h2 | h2
    · rcases mem_pyDictInsert d kv0.1 kv0.2 kv h2 with h3 | h3
      · exact Or.inl h3
      · right
        simp [h3]
    · right
      simp only [List.map_cons, List.mem_cons]
      exact Or.inr h2

/-- Values surviving the `restval` fill come from the base dict or are
`missing`. -/
theorem mem_fill_vals : ∀ (ks : List String) (d : CsvRecord) (kv : Option String × CsvCellVal),
    kv ∈ ks.foldl (fun d k => pyDictInsert d (some k) CsvCellVal.missing) d →
    kv ∈ d ∨ kv.2 = CsvCellVal.missing := by
  intro ks
  induction ks with
  | nil => intro d kv h; exact Or.inl h
  | cons a rest ih =>
    intro d kv h
    simp only [List.foldl_cons] at h
    rcases ih (pyDictInsert d (some a) CsvCellVal.missing) kv h with h2 | h2
    · rcases mem_pyDictInsert d (some a) CsvCellVal.missing kv h2 with h3 | h3
      · exact Or.inl h3
      · exact Or.inr h3
    · exact Or.inr h2

/-- Every value of a `DictReader` record built from a row not longer than
the header is a text cell or `missing` (no `restkey` list appears). -/
theorem dictReaderRow_vals (header row : List String) (hlen : row.length ≤ header.length) :
    ∀ kv ∈ dictReaderRow header row,
      kv.2 = CsvCellVal.missing ∨ ∃ s, kv.2 = CsvCellVal.cell s := by
  intro kv h
  unfold dictReaderRow at h
  rw [if_neg (by omega)] at h
  rcases mem_fill_vals _ _ _ h with h2 | h2
  · have h3 := mem_pyDict_foldl_vals _ [] kv (by simpa [pyDictOf] using h2)
    rcases h3 with h3 | h3
    · cases h3
    · right
      rw [List.map_map] at h3
      rcases List.mem_map.mp h3 with ⟨hc, _, he⟩
      exact ⟨hc.2, he.symm⟩
  · exact Or.inl h2

/-- The keys of a `DictReader` record for a row not longer than a
duplicate-free header are exactly the header names. -/
theorem dictReaderRow_keys (header row : List String) (hnd : header.Nodup)
    (hlen : row.length ≤ header.length) :
    (dictReaderRow header row).map Prod.fst = header.map some := by
  rw [dictReaderRow_short header row hnd hlen, List.map_append, zipPart_keys]
  have h2 : ((header.drop row.length).map (fun k => (some k, CsvCellVal.missing))).map Prod.fst
      = (header.drop row.length).map some := by
    rw [List.map_map]
    rfl
  rw [h2, ← List.map_append, List.take_append_drop]

/-- Lookup skips a prefix that does not bind the key. -/
theorem pyGetKV_append_of_not_mem [DecidableEq K] : ∀ (l1 l2 : List (K × V)) (k : K),
    k ∉ l1.map Prod.fst → pyGetKV (l1 ++ l2) k = pyGetKV l2 k := by
  intro l1
  induction l1 with
  | nil => intro l2 k _; rfl
  | cons kv rest ih =>
    intro l2 k h
    simp only [List.map_cons, List.mem_cons] at h
    push_neg at h
    simp only [List.cons_append, pyGetKV]
    rw [if_neg (fun he => h.1 he.symm)]
    exact ih l2 k h.2

/-- C1 counterexample: with the schema tag literally `integer` (the tag
named by the claim and by the spec's data model), the code's validator
does not accept the parseable value `"3"` with no errors — the tag falls
into the unknown-type branch, so the claim as stated is false. -/
theorem C1_counterexample :
    validate_schema [Json.obj [("a", Json.str "3")]] [("a", Json.str "integer")] ≠
      Except.ok ([] : List String) := by
  have e : validate_schema [Json.obj [("a", Json.str "3")]] [("a", Json.str "integer")] =
      Except.ok ["unknown schema type for a: integer"] := rfl
  rw [e]
  simp

/-- C1 amended: the type tags the validator recognises are `int` and
`float` (and `str`), not `integer`/`real`: a parseable value passes and
an unparseable value yields exactly one type error naming row 1 and
field `a`. -/
theorem C1_claim :
    validate_schema [Json.obj [("a", Json.str "3")]] [("a", Json.str "int")] = Except.ok []
  ∧ validate_schema [Json.obj [("a", Json.str "3")]] [("a", Json.str "float")] = Except.ok []
  ∧ validate_schema [Json.obj [("a", Json.str "3.14")]] [("a", Json.str "int")] =
      Except.ok ["row 1: field a expected int, got " ++ sq ++ "3.14" ++ sq] :=
  ⟨rfl, rfl, rfl⟩

/-- C2 counterexample: with cap `N = 0` the readers return all records
(Python's `if max_rows and ...` treats `0` as falsy), not
`min(0, totalRecords) = 0` of them. -/
theorem C2_counterexample :
    (read_csv [["a"], ["1"]] (some 0)).length ≠
      min 0 (read_csv [["a"], ["1"]] none).length := by decide

/-- C2 amended: for every cap `N ≥ 1` both readers return exactly
`min(N, totalRecords)` records and they are the first `N` of the uncapped
read (original order); a cap of `0` behaves like no cap. -/
theorem C2_claim : ∀ (content : List (List String)) (xs : List Json)
    (kvs : List (String × Json)) (N : Nat), 1 ≤ N →
    read_csv content (some N) = (read_csv content none).take N
    ∧ (read_csv content (some N)).length = min N (read_csv content none).length
    ∧ read_json (Json.arr xs) (some N) = Except.ok (xs.take N)
    ∧ (xs.take N).length = min N xs.length
    ∧ read_json (Json.obj kvs) (some N) = Except.ok [Json.obj kvs] := by
  intro content xs kvs N hN
  have hN0 : ¬ N = 0 := by omega
  have h1 : read_csv content (some N) = (read_csv content none).take N := by
    cases content with
    | nil => simp [read_csv]
    | cons header rest => simp [read_csv, applyCap, hN0]
  refine ⟨h1, ?_, ?_, ?_, rfl⟩
  · rw [h1, List.length_take]
  · simp [read_json, applyCap, hN0]
  · rw [List.length_take]

/-- C2 witness at a concrete one-record source with cap 1. -/
theorem C2_witness : read_csv [["a"], ["1"]] (some 1) = (read_csv [["a"], ["1"]] none).take 1 :=
  (C2_claim [["a"], ["1"]] [] [] 1 (by decide)).1

/-- C3 counterexample: the `validate` subcommand has no existence check
(unlike `summary`), so a missing primary path raises inside the `try`
and exits with status 1, not 2. -/
theorem C3_counterexample :
    mainValidate ⟨".csv", none⟩ (some (Except.ok (Json.obj []))) ≠ 2 := by decide

/-- C3 amended: `validate` on a missing primary path exits 1 (the generic
error path; only `summary` returns 2 for a missing path); otherwise it
exits 0 when the error list is empty, 3 when it is non-empty, and 1 on
other errors such as an unparseable input document. -/
theorem C3_claim :
    (∀ (input : InputFile) (schemaSrc : Option (Except PyErr Json)),
        input.content = none → mainValidate input schemaSrc = 1)
  ∧ (∀ (raw : RawFile) (schemaSrc : Option (Except PyErr Json)) (e : PyErr),
        raw.jsonResult = Except.error e → mainValidate ⟨".json", some raw⟩ schemaSrc = 1)
  ∧ (∀ (raw : RawFile) (data : Json) (rows : List Json) (sj : Json)
        (schema : List (String × Json)) (errs : List String),
        raw.jsonResult = Except.ok data →
        read_json data none = Except.ok rows →
        load_schema sj = Except.ok schema →
        validate_schema rows schema = Except.ok errs →
        mainValidate ⟨".json", some raw⟩ (some (Except.ok sj)) =
          if errs.isEmpty then 0 else 3) := by
  refine ⟨?_, ?_, ?_⟩
  · intro input schemaSrc h
    obtain ⟨suffix, content⟩ := input
    simp only at h
    subst h
    by_cases h1 : suffix = ".csv" <;> by_cases h2 : suffix = ".json" <;>
      simp [mainValidate, openCsvFile, openJsonFile, guessRead, h1, h2]
  · intro raw schemaSrc e h
    simp [mainValidate, openJsonFile, h]
  · intro raw data rows sj schema errs h1 h2 h3 h4
    simp [mainValidate, openJsonFile, h1, h2, h3, h4]

/-- C3 witness: a concrete missing `.csv` path exits 1. -/
theorem C3_witness : mainValidate ⟨".csv", none⟩ none = 1 :=
  C3_claim.1 ⟨".csv", none⟩ none rfl

/-- C7: a schema field that is absent, or present with `None` or empty
text, contributes exactly the missing-field message and no type check is
performed for that pair (the message does not depend on the tag); and
`validate([{}], {"a": "text"})` is exactly `["row 1: missing a"]`. -/
theorem C7_claim :
    (∀ (i : Nat) (r : List (String × Json)) (field : String) (tname : Json),
        (pyGetKV r field = none ∨ pyGetKV r field = some Json.null ∨
         pyGetKV r field = some (Json.str "")) →
        pairMsgs i r field tname = ["row " ++ toString (i + 1) ++ ": missing " ++ field])
  ∧ validate_schema [Json.obj []] [("a", Json.str "text")] = Except.ok ["row 1: missing a"] := by
  constructor
  · intro i r field tname h
    have hv : valMissing (pyGetKV r field) = true := by
      rcases h with h | h | h <;> simp [h, valMissing]
    simp [pairMsgs, hv]
  · rfl

/-- C7 witness: an absent field at row index 0. -/
theorem C7_witness :
    pairMsgs 0 [] "a" (Json.str "text") = ["row " ++ toString (0 + 1) ++ ": missing " ++ "a"] :=
  C7_claim.1 0 [] "a" (Json.str "text") (Or.inl rfl)

/-- C8: the auto-detection of `main` attempts the hierarchical parse
first (a successful hierarchical read is returned as-is), on any failure
it attempts the delimited parse, and when both fail the caller sees the
delimited (second) attempt's error, never the first attempt's. -/
theorem C8_claim : ∀ (f : InputFile) (cap : Option Nat),
    (∀ rs, openJsonFile f cap = Except.ok rs →
        guessRead f cap = Except.ok (RowsData.fromJson rs))
  ∧ (∀ e rs, openJsonFile f cap = Except.error e → openCsvFile f cap = Except.ok rs →
        guessRead f cap = Except.ok (RowsData.fromCsv rs))
  ∧ (∀ e1 e2, openJsonFile f cap = Except.error e1 → openCsvFile f cap = Except.error e2 →
        guessRead f cap = Except.error e2) := by
  intro f cap
  refine ⟨?_, ?_, ?_⟩
  · intro rs h
    simp [guessRead, h]
  · intro e rs h1 h2
    simp [guessRead, h1, h2]
  · intro e1 e2 h1 h2
    simp [guessRead, h1, h2]

/-- C8 witness: a file on which both parses fail surfaces the second
(delimited) attempt's error. -/
theorem C8_witness :
    guessRead ⟨".dat", some ⟨Except.error (PyErr.valueError "Expecting value"),
        Except.error (PyErr.valueError "decode failure")⟩⟩ none =
      Except.error (PyErr.valueError "decode failure") :=
  (C8_claim ⟨".dat", some ⟨Except.error (PyErr.valueError "Expecting value"),
      Except.error (PyErr.valueError "decode failure")⟩⟩ none).2.2
    (PyErr.valueError "Expecting value") (PyErr.valueError "decode failure") rfl rfl

/-- C5 counterexample: a short row binds the uncovered header field `b`
(it is present with the `restval` `None`, not absent), and extra trailing
cells do appear in the record, under the `restkey` `None`. -/
theorem C5_counterexample :
    pyGetKV (dictReaderRow ["a", "b"] ["1"]) (some "b") ≠ none
  ∧ pyGetKV (dictReaderRow ["a"] ["1", "2"]) none ≠ none := by decide

/-- C5 amended: for a duplicate-free header, every header field is bound
in the record — position `j` holds its cell when the row covers it and
the `restval` `None` otherwise — and extra trailing cells are collected,
in order, under the `restkey` `None` (never under a header field);
neither case errors. -/
theorem C5_claim : ∀ (header row : List String), header.Nodup →
    (row.length ≤ header.length →
        (∀ j, j < header.length →
          pyGetKV (dictReaderRow header row) (some (header.getD j "")) =
            some (if j < row.length then CsvCellVal.cell (row.getD j "")
                  else CsvCellVal.missing))
        ∧ pyGetKV (dictReaderRow header row) none = none)
    ∧ (header.length < row.length →
        pyGetKV (dictReaderRow header row) none =
          some (CsvCellVal.extras (row.drop header.length))) := by
  intro header row hnd
  constructor
  · intro hlen
    have hkeys := dictReaderRow_keys header row hnd hlen
    constructor
    · intro j hj
      apply pyGetKV_of_mem
      · rw [hkeys]
        exact hnd.map (Option.some_injective _)
      · rw [dictReaderRow_short header row hnd hlen]
        by_cases hjr : j < row.length
        · rw [if_pos hjr]
          apply List.mem_append_left
          exact List.mem_map.mpr
            ⟨(header.getD j "", row.getD j ""), getD_pair_mem_zip header row j hj hjr, rfl⟩
        · rw [if_neg hjr]
          apply List.mem_append_right
          exact List.mem_map.mpr
            ⟨header.getD j "", getD_mem_drop header row.length j (by omega) hj, rfl⟩
    · apply pyGetKV_eq_none
      rw [hkeys]
      intro h
      rcases List.mem_map.mp h with ⟨x, _, he⟩
      exact Option.noConfusion he
  · intro hlen
    rw [dictReaderRow_long header row hnd hlen]
    rw [pyGetKV_append_of_not_mem]
    · simp [pyGetKV]
    · rw [zipPart_keys]
      intro h
      rcases List.mem_map.mp h with ⟨x, _, he⟩
      exact Option.noConfusion he

/-- C5 witness: the uncovered field `b` of a short row is bound to the
`restval`. -/
theorem C5_witness :
    pyGetKV (dictReaderRow ["a", "b"] ["1"]) (some ((["a", "b"]).getD 1 "")) =
      some (if 1 < (["1"] : List String).length then CsvCellVal.cell ((["1"]).getD 1 "")
            else CsvCellVal.missing) :=
  ((C5_claim ["a", "b"] ["1"] (by decide)).1 (by decide)).1 1 (by decide)

/-- C10 counterexample: a data row longer than the header makes the
written hierarchical document hold an array value (the extra cells under
the coerced `restkey`), so the document is not string-or-null only. -/
theorem C10_counterexample :
    stringOrNullDoc (csv_to_json [["a"], ["1", "2"]]) = false := by decide

/-- C10 amended: when no data row is longer than the header, every value
of every record of the document written by `convert-to-json` is a string
or `null` — numeric-looking cells are never coerced to numbers. -/
theorem C10_claim : ∀ (header : List String) (rows : List (List String)),
    (∀ r ∈ rows, r.length ≤ header.length) →
    stringOrNullDoc (csv_to_json (header :: rows)) = true := by
  intro header rows hlen
  simp only [csv_to_json, stringOrNullDoc, read_csv, applyCap]
  rw [List.all_eq_true]
  intro it hit
  rcases List.mem_map.mp hit with ⟨rec, hrec, he⟩
  rcases List.mem_map.mp hrec with ⟨r, hr, he2⟩
  have hrlen : r.length ≤ header.length := hlen r (List.mem_of_mem_filter hr)
  rw [← he, ← he2]
  simp only [csvRecordToJson]
  rw [List.all_eq_true]
  intro kv hkv
  rcases List.mem_map.mp hkv with ⟨kv0, hkv0, he3⟩
  rcases dictReaderRow_vals header r hrlen kv0 hkv0 with h | ⟨s, h⟩
  · rw [← he3]
    simp [csvValToJson, h, stringOrNull]
  · rw [← he3]
    simp [csvValToJson, h, stringOrNull]

/-- C10 witness: a short row yields a string-or-null document. -/
theorem C10_witness : stringOrNullDoc (csv_to_json [["a", "b"], ["1"]]) = true :=
  C10_claim ["a", "b"] [["1"]] (by decide)

/-- With an empty header no field is ever accessed, so every element —
record or not — yields an empty row. -/
theorem rowFor_nil (it : Json) : rowFor [] it = Except.ok [] := by
  cases it <;> rfl

/-- With an empty header the conversion writes one empty row per element. -/
theorem rowsFor_nil_fields : ∀ (items : List Json),
    rowsFor [] items = Except.ok (items.map (fun _ => [])) := by
  intro items
  induction items with
  | nil => rfl
  | cons it rest ih => simp [rowsFor, rowFor_nil, ih]

/-- With a non-empty header, a dataset containing a non-record element
makes the row loop raise an `AttributeError` (at the first such element
in source order). -/
theorem rowsFor_err (fields : List String) (hne : fields ≠ []) :
    ∀ (items : List Json), (∃ it ∈ items, isObj it = false) →
    ∃ t, rowsFor fields items = Except.error (PyErr.attributeError (attrMsg t)) := by
  intro items
  induction items with
  | nil =>
    rintro ⟨it, hmem, _⟩
    cases hmem
  | cons it rest ih =>
    rintro ⟨it0, hmem, hobj⟩
    cases hit : isObj it
    · refine ⟨pyTypeName it, ?_⟩
      cases fields with
      | nil => exact absurd rfl hne
      | cons f0 fs =>
        have hrow : rowFor (f0 :: fs) it = Except.error (PyErr.attributeError (attrMsg (pyTypeName it))) := by
          cases it <;> simp_all [rowFor, isObj]
        simp [rowsFor, hrow]
    · cases it with
      | obj kvs =>
        have hrest : ∃ it2 ∈ rest, isObj it2 = false := by
          rcases List.mem_cons.mp hmem with h | h
          · rw [h] at hobj
            rw [hobj] at hit
            cases hit
          · exact ⟨it0, h, hobj⟩
        obtain ⟨t, ht⟩ := ih hrest
        refine ⟨t, ?_⟩
        simp [rowsFor, rowFor, ht]
      | null => simp [isObj] at hit
      | bool b => simp [isObj] at hit
      | int n => simp [isObj] at hit
      | str s => simp [isObj] at hit
      | arr xs => simp [isObj] at hit

/-- C4 counterexample: a dataset whose single element is a non-record
converts successfully (the field union is empty, so the element is never
accessed and a blank row is written) — no `ShapeError`, no failure. -/
theorem C4_counterexample :
    json_to_csv (Json.arr [Json.str "hello"]) = Except.ok ([], [[]]) := rfl

/-- C4 amended: a dataset containing a non-record element fails only when
the field union over its record elements is non-empty, and then with an
`AttributeError` whose message names the offending element's type but not
its index; when the union is empty the conversion succeeds, writing one
blank row per element. -/
theorem C4_claim : ∀ (items : List Json),
    (∃ it ∈ items, isObj it = false) →
    (sortStrings (keysUnion items) = [] →
        json_to_csv (Json.arr items) = Except.ok ([], items.map (fun _ => [])))
    ∧ (sortStrings (keysUnion items) ≠ [] →
        ∃ t, json_to_csv (Json.arr items) = Except.error (PyErr.attributeError (attrMsg t))) := by
  intro items hex
  constructor
  · intro hnil
    simp [json_to_csv, jsonToCsvItems, hnil, rowsFor_nil_fields]
  · intro hne
    obtain ⟨t, ht⟩ := rowsFor_err (sortStrings (keysUnion items)) hne items hex
    refine ⟨t, ?_⟩
    simp [json_to_csv, jsonToCsvItems, ht]

/-- C4 witness: a mixed dataset with a record and a non-record fails with
an `AttributeError`. -/
theorem C4_witness : ∃ t, json_to_csv (Json.arr [Json.obj [("a", Json.int 1)], Json.int 5]) =
    Except.error (PyErr.attributeError (attrMsg t)) :=
  (C4_claim [Json.obj [("a", Json.int 1)], Json.int 5]
      ⟨Json.int 5, by simp, rfl⟩).2 (by decide)

/-- A field name occurs in the concatenated key list iff it occurs in
some record of the dataset. -/
theorem mem_allKeys : ∀ (items : List Json) (f : String),
    f ∈ allKeys items ↔ ∃ it ∈ items, f ∈ recKeys it := by
  intro items
  induction items with
  | nil => intro f; simp [allKeys]
  | cons it rest ih =>
    intro f
    simp only [allKeys, List.mem_append, ih f]
    constructor
    · rintro (h | ⟨it2, hm, hk⟩)
      · exact ⟨it, by simp, h⟩
      · exact ⟨it2, by simp [hm], hk⟩
    · rintro ⟨it2, hm, hk⟩
      rcases List.mem_cons.mp hm with h | h
      · exact Or.inl (h ▸ hk)
      · exact Or.inr ⟨it2, h, hk⟩

/-- The row the flattener writes for a record, in the case form used by
the specification: absent and null fields give empty text, nested values
are re-serialized, scalars take their textual form. -/
theorem rowFor_obj_eq (fields : List String) (kvs : List (String × Json)) :
    rowFor fields (Json.obj kvs) = Except.ok (fields.map (fun f =>
      match pyGetKV kvs f with
      | none => ""
      | some Json.null => ""
      | some (Json.obj kvs2) => jsonDumps (Json.obj kvs2)
      | some (Json.arr xs) => jsonDumps (Json.arr xs)
      | some (Json.str s) => s
      | some (Json.int n) => toString n
      | some (Json.bool b) => if b then "True" else "False")) := by
  simp only [rowFor]
  refine congrArg Except.ok ?_
  refine List.map_congr_left ?_
  intro f _
  cases h : pyGetKV kvs f with
  | none => simp [h, cellOf]
  | some v => cases v <;> simp [h, cellOf]

/-- On a dataset of records the row loop never raises and produces the
specification's rows. -/
theorem rowsFor_all_obj (fields : List String) : ∀ (items : List Json),
    (∀ it ∈ items, isObj it = true) →
    rowsFor fields items = Except.ok (items.map (fun it => fields.map (fun f =>
      match it with
      | Json.obj kvs =>
        (match pyGetKV kvs f with
         | none => ""
         | some Json.null => ""
         | some (Json.obj kvs2) => jsonDumps (Json.obj kvs2)
         | some (Json.arr xs) => jsonDumps (Json.arr xs)
         | some (Json.str s) => s
         | some (Json.int n) => toString n
         | some (Json.bool b) => if b then "True" else "False")
      | _ => ""))) := by
  intro items
  induction items with
  | nil => intro _; rfl
  | cons it rest ih =>
    intro h
    have hit := h it (by simp)
    cases it with
    | obj kvs =>
      simp only [rowsFor, rowFor_obj_eq,
        ih (fun x hx => h x (List.mem_cons_of_mem _ hx))]
      rfl
    | null => simp [isObj] at hit
    | bool b => simp [isObj] at hit
    | int n => simp [isObj] at hit
    | str s => simp [isObj] at hit
    | arr xs => simp [isObj] at hit

/-- C6: on a dataset of records the flattener computes exactly the
specification's flattening — the header is the union of field names of
all records, sorted ascending by code points, and each cell follows the
absent/null, nested, scalar case rule of `flattenSpec`. -/
theorem C6_claim : ∀ (items : List Json), (∀ it ∈ items, isObj it = true) →
    json_to_csv (Json.arr items) = Except.ok (flattenSpec items)
    ∧ List.Chain' (fun a b => strLe a b = true) (flattenSpec items).1
    ∧ (∀ f, f ∈ (flattenSpec items).1 ↔ ∃ it ∈ items, f ∈ recKeys it) := by
  intro items hobj
  refine ⟨?_, ?_, ?_⟩
  · simp only [json_to_csv, jsonToCsvItems, keysUnion, flattenSpec]
    rw [rowsFor_all_obj _ items hobj]
  · exact sortStrings_chain' _
  · intro f
    have e : (flattenSpec items).1 = sortStrings (dedupKeys (allKeys items)) := rfl
    rw [e, mem_sortStrings, mem_dedupKeys]
    exact mem_allKeys items f

/-- C6 witness: a record with a scalar and a nested field flattens to the
specification's header and rows. -/
theorem C6_witness :
    json_to_csv (Json.arr [Json.obj [("y", Json.obj [("z", Json.int 2)]), ("x", Json.int 1)]]) =
      Except.ok (flattenSpec [Json.obj [("y", Json.obj [("z", Json.int 2)]), ("x", Json.int 1)]]) :=
  (C6_claim [Json.obj [("y", Json.obj [("z", Json.int 2)]), ("x", Json.int 1)]] (by decide)).1

/-- An in-bounds `getD` is a member of the list (generic element type). -/
theorem getD_mem_gen {α : Type} (d : α) : ∀ (l : List α) (j : Nat), j < l.length → l.getD j d ∈ l := by
  intro l
  induction l with
  | nil => intro j h; simp at h
  | cons a l ih =>
    intro j h
    cases j with
    | zero => simp
    | succ j =>
      simp only [List.length_cons, Nat.succ_lt_succ_iff] at h
      simp only [List.getD_cons_succ]
      exact List.mem_cons_of_mem a (ih j h)

/-- After the `json.dump`/`json.load` round trip, a `DictReader` record
of a row not longer than a duplicate-free header is the canonical record. -/
theorem csvRecordToJson_canon (header r : List String) (hnd : header.Nodup)
    (hlen : r.length ≤ header.length) :
    csvRecordToJson (dictReaderRow header r) = Json.obj (objRow header r) := by
  rw [dictReaderRow_short header r hnd hlen]
  simp only [csvRecordToJson, objRow, List.map_append, List.map_map]
  rfl

/-- The field names of the canonical record are exactly the header. -/
theorem objRow_keys (header r : List String) (_hlen : r.length ≤ header.length) :
    (objRow header r).map Prod.fst = header := by
  simp only [objRow, List.map_append, List.map_map]
  show (header.zip r).map Prod.fst ++ (header.drop r.length).map id = header
  rw [zip_map_fst, List.map_id, List.take_append_drop]

/-- In the canonical record, a field covered by the row holds its cell. -/
theorem objRow_get (header r : List String) (hnd : header.Nodup)
    (hlen : r.length ≤ header.length) (j : Nat) (hjr : j < r.length) (hjh : j < header.length) :
    pyGetKV (objRow header r) (header.getD j "") = some (Json.str (r.getD j "")) := by
  apply pyGetKV_of_mem
  · rw [objRow_keys header r hlen]
    exact hnd
  · apply List.mem_append_left
    exact List.mem_map.mpr
      ⟨(header.getD j "", r.getD j ""), getD_pair_mem_zip header r j hjh hjr, rfl⟩

/-- C9 counterexample: a delimited dataset with a header but no data rows
loses its header through the round trip — `csv_to_json` writes `[]`, and
flattening `[]` yields an empty header, not the original header as a set. -/
theorem C9_counterexample :
    json_to_csv (csv_to_json [["a"]]) = Except.ok ([], [])
  ∧ ("a" : String) ∉ ([] : List String) := by
  constructor
  · rfl
  · simp

/-- C9 amended: for a well-formed delimited dataset — duplicate-free
header, at least one data row, no blank rows, no row longer than the
header (no nested values arise) — the round trip yields a header with
exactly the original field names (reordered ascending) and preserves the
cell of every field originally present in each row, located through the
new header's column order. -/
theorem C9_claim : ∀ (header : List String) (rows : List (List String)),
    header.Nodup → rows ≠ [] → (∀ r ∈ rows, r ≠ []) →
    (∀ r ∈ rows, r.length ≤ header.length) →
    ∃ hdr rows2,
      json_to_csv (csv_to_json (header :: rows)) = Except.ok (hdr, rows2)
      ∧ (∀ f, f ∈ hdr ↔ f ∈ header)
      ∧ rows2.length = rows.length
      ∧ (∀ i j, i < rows.length → j < (rows.getD i []).length →
          (rows2.getD i []).getD (idxOfStr (header.getD j "") hdr) "" =
            (rows.getD i []).getD j "") := by
  intro header rows hnd hne hblank hlen
  have hfilter : rows.filter (fun r => !r.isEmpty) = rows := by
    apply List.filter_eq_self.mpr
    intro r hr
    have h := hblank r hr
    cases r with
    | nil => exact absurd rfl h
    | cons c cs => simp
  have hread : read_csv (header :: rows) none = rows.map (dictReaderRow header) := by
    simp [read_csv, applyCap, hfilter]
  have e0 : csv_to_json (header :: rows) =
      Json.arr (rows.map (fun r => Json.obj (objRow header r))) := by
    simp only [csv_to_json]
    rw [hread, List.map_map]
    refine congrArg Json.arr ?_
    apply List.map_congr_left
    intro r hr
    exact csvRecordToJson_canon header r hnd (hlen r hr)
  have hallobj : ∀ it ∈ rows.map (fun r => Json.obj (objRow header r)), isObj it = true := by
    intro it hit
    rcases List.mem_map.mp hit with ⟨r, _, he⟩
    rw [← he]
    rfl
  have hkeysall : ∀ it ∈ rows.map (fun r => Json.obj (objRow header r)), recKeys it = header := by
    intro it hit
    rcases List.mem_map.mp hit with ⟨r, hr, he⟩
    rw [← he]
    exact objRow_keys header r (hlen r hr)
  have hku : keysUnion (rows.map (fun r => Json.obj (objRow header r))) = header := by
    obtain ⟨r0, rest, erows⟩ : ∃ r0 rest, rows = r0 :: rest := by
      cases rows with
      | nil => exact absurd rfl hne
      | cons r0 rest => exact ⟨r0, rest, rfl⟩
    subst erows
    simp only [List.map_cons, keysUnion, allKeys]
    rw [hkeysall (Json.obj (objRow header r0)) (by simp)]
    apply dedupKeys_header header _ hnd
    intro k hk
    rcases (mem_allKeys _ k).mp hk with ⟨it2, hm2, hk2⟩
    have : recKeys it2 = header :=
      hkeysall it2 (List.mem_cons_of_mem _ hm2)
    rw [← this]
    exact hk2
  have e1 : json_to_csv (Json.arr (rows.map (fun r => Json.obj (objRow header r)))) =
      Except.ok (sortStrings header,
        rows.map (fun r => (sortStrings header).map (fun f =>
          match pyGetKV (objRow header r) f with
          | none => ""
          | some Json.null => ""
          | some (Json.obj kvs2) => jsonDumps (Json.obj kvs2)
          | some (Json.arr xs) => jsonDumps (Json.arr xs)
          | some (Json.str s) => s
          | some (Json.int n) => toString n
          | some (Json.bool b) => if b then "True" else "False"))) := by
    simp only [json_to_csv, jsonToCsvItems]
    rw [hku, rowsFor_all_obj (sortStrings header) _ hallobj]
    rw [List.map_map]
    rfl
  refine ⟨sortStrings header,
    rows.map (fun r => (sortStrings header).map (fun f =>
      match pyGetKV (objRow header r) f with
      | none => ""
      | some Json.null => ""
      | some (Json.obj kvs2) => jsonDumps (Json.obj kvs2)
      | some (Json.arr xs) => jsonDumps (Json.arr xs)
      | some (Json.str s) => s
      | some (Json.int n) => toString n
      | some (Json.bool b) => if b then "True" else "False")),
    ?_, ?_, ?_, ?_⟩
  · rw [e0, e1]
  · intro f
    exact mem_sortStrings
  · rw [List.length_map]
  · intro i j hi hj
    have hrowmem : rows.getD i [] ∈ rows := getD_mem_gen [] rows i hi
    have hrl : (rows.getD i []).length ≤ header.length := hlen _ hrowmem
    have hjh : j < header.length := lt_of_lt_of_le hj hrl
    have hfh : header.getD j "" ∈ sortStrings header :=
      mem_sortStrings.mpr (getD_mem_gen "" header j hjh)
    rw [map_getD_lt _ rows i [] [] hi]
    rw [map_getD_idxOf _ (sortStrings header) _ hfh]
    rw [objRow_get header (rows.getD i []) hnd hrl j hj hjh]

/-- C9 witness: a two-column dataset with one data row round-trips with
its header as a set and its cells preserved up to column reordering. -/
theorem C9_witness : ∃ hdr rows2,
    json_to_csv (csv_to_json [["b", "a"], ["1", "2"]]) = Except.ok (hdr, rows2)
    ∧ (∀ f, f ∈ hdr ↔ f ∈ (["b", "a"] : List String))
    ∧ rows2.length = ([["1", "2"]] : List (List String)).length
    ∧ (∀ i j, i < ([["1", "2"]] : List (List String)).length →
        j < (([["1", "2"]] : List (List String)).getD i []).length →
        (rows2.getD i []).getD (idxOfStr ((["b", "a"] : List String).getD j "") hdr) "" =
          (([["1", "2"]] : List (List String)).getD i []).getD j "") :=
  C9_claim ["b", "a"] [["1", "2"]] (by decide) (by decide) (by decide) (by decide)

end DataTool
